import Mathlib

/-!
Verification of the borsapy provider/cache layer.

This file gives a shallow embedding, in Lean 4, of the parts of the
borsapy code base that the specification talks about:

* `borsapy/cache.py` — the TTL-based in-memory cache (`Cache.get`,
  `Cache.set`, `Cache.delete`, `Cache.cleanup`) and the `TTL` constant
  class;
* `borsapy/_providers/paratic.py` — the period→days resolver
  (`_get_period_days`, `PERIOD_MAP`), the history cache key, and the
  fetch/parse pipeline of `get_history` / `_parse_response`;
* `borsapy/_providers/isyatirim.py` — the fiscal-period generator
  `_get_periods` and the financial-statements cache key;
* `borsapy/_providers/hedeffiyat.py` and `borsapy/_providers/viop.py` —
  the two locale-aware `_parse_number` implementations;
* `borsapy/_providers/viop.py` — `_fetch_page` and its use of the
  undefined attribute `TTL.VIOP`;
* `borsapy/_providers/kap.py` — `search` and `_normalize_text`.

Conventions of the embedding: wall-clock instants (`time.time()`,
`datetime` values) are rationals passed explicitly; Python dicts become
association lists with the usual unique-key update; Python exceptions
become an `Except` / `Option` result; Python `list.sort` (Timsort, a
stable sort) is embedded as a stable fold-left insertion sort.
-/

namespace Borsapy

/-- Embedding of `CacheEntry` from `borsapy/cache.py`: a stored value
together with its absolute expiry instant `expires_at`. -/
structure CacheEntry (α : Type) where
  value : α
  expires_at : ℚ
  deriving DecidableEq

/-- Embedding of the `Cache._store` dict: an association list from string
keys to cache entries, with the unique-key update discipline of a Python
dict. -/
abbrev CacheStore (α : Type) := List (String × CacheEntry α)

/-- Embedding of `self._store.get(key)`. -/
def storeLookup {α : Type} (store : CacheStore α) (key : String) : Option (CacheEntry α) :=
  (store.find? (fun kv => kv.1 == key)).map (fun kv => kv.2)

/-- Embedding of `del self._store[key]`. -/
def storeErase {α : Type} (store : CacheStore α) (key : String) : CacheStore α :=
  store.filter (fun kv => !(kv.1 == key))

/-- Embedding of `self._store[key] = entry`: dict assignment replaces the
entry of an existing key in place and appends a fresh key at the end. -/
def storeInsert {α : Type} : CacheStore α → String → CacheEntry α → CacheStore α
  | [], key, e => [(key, e)]
  | kv :: rest, key, e =>
      if kv.1 == key then (key, e) :: rest else kv :: storeInsert rest key e

/-- Embedding of `Cache.get` (cache.py lines 26–35), with the call instant
`now` (`time.time()`) made explicit.  Returns the read result together
with the store left behind (expired entries are deleted on read). -/
def cacheGet {α : Type} (now : ℚ) (store : CacheStore α) (key : String) :
    Option α × CacheStore α :=
  match storeLookup store key with
  | none => (none, store)
  | some entry =>
      if now > entry.expires_at then (none, storeErase store key)
      else (some entry.value, store)

/-- Embedding of `Cache.set` (cache.py lines 37–43): stores the value with
`expires_at = time.time() + ttl_seconds`. -/
def cacheSet {α : Type} (now : ℚ) (store : CacheStore α) (key : String) (value : α)
    (ttl_seconds : Int) : CacheStore α :=
  storeInsert store key ⟨value, now + ttl_seconds⟩

/-- Embedding of `Cache.delete` (cache.py lines 45–51). -/
def cacheDelete {α : Type} (store : CacheStore α) (key : String) : Bool × CacheStore α :=
  if store.any (fun kv => kv.1 == key) then (true, storeErase store key)
  else (false, store)

/-- Embedding of `Cache.clear` (cache.py lines 53–56). -/
def cacheClear {α : Type} (_store : CacheStore α) : CacheStore α := []

/-- Embedding of `Cache.cleanup` (cache.py lines 58–65): collects the keys
with `now > entry.expires_at`, deletes them, and returns how many were
deleted, beside the surviving store. -/
def cacheCleanup {α : Type} (now : ℚ) (store : CacheStore α) : Nat × CacheStore α :=
  ((store.filter (fun kv => decide (now > kv.2.expires_at))).length,
    store.filter (fun kv => !(decide (now > kv.2.expires_at))))

lemma storeLookup_storeInsert_self {α : Type} (store : CacheStore α) (key : String)
    (e : CacheEntry α) : storeLookup (storeInsert store key e) key = some e := by
  induction store with
  | nil => simp [storeInsert, storeLookup, List.find?]
  | cons kv rest ih =>
      by_cases h : kv.1 = key
      · simp [storeInsert, storeLookup, List.find?, h]
      · simp only [storeInsert, beq_iff_eq, h, if_false]
        simpa [storeLookup, List.find?_cons, h] using ih

lemma storeLookup_storeErase_self {α : Type} (store : CacheStore α) (key : String) :
    storeLookup (storeErase store key) key = none := by
  simp only [storeLookup, Option.map_eq_none', List.find?_eq_none]
  intro kv hkv
  simp only [storeErase, List.mem_filter] at hkv
  simpa using hkv.2

lemma length_filter_add_length_filter_not {α : Type} (p : α → Bool) (l : List α) :
    (l.filter p).length + (l.filter (fun a => !(p a))).length = l.length := by
  induction l with
  | nil => rfl
  | cons a l ih =>
      by_cases h : p a <;> simp [List.filter_cons, h] <;> omega

/-- Claim C3 (amended): after `set(key, value, ttl)` at instant `t0` with a
non-negative TTL, `get(key)` returns the stored value for every read at or
before `expiresAt = t0 + ttl` (in particular for every read strictly
before it), and reports a miss — deleting the entry — for every read
strictly after `expiresAt`.  The code keeps the entry at `now = expiresAt`
(`Cache.get` evicts only when `time.time() > expires_at`), so the boundary
read is a hit, not the miss the original claim states. -/
theorem cache_get_set_spec {α : Type} (store : CacheStore α) (key : String) (value : α)
    (ttl : Int) (t0 now : ℚ) (httl : 0 ≤ ttl) :
    (now ≤ t0 + ttl →
      cacheGet now (cacheSet t0 store key value ttl) key =
        (some value, cacheSet t0 store key value ttl)) ∧
    (t0 + ttl < now →
      (cacheGet now (cacheSet t0 store key value ttl) key).1 = none ∧
      storeLookup (cacheGet now (cacheSet t0 store key value ttl) key).2 key = none) := by
  have hl : storeLookup (cacheSet t0 store key value ttl) key =
      some ⟨value, t0 + ttl⟩ := storeLookup_storeInsert_self store key _
  constructor
  · intro hle
    simp [cacheGet, hl, not_lt.mpr hle]
  · intro hgt
    simp [cacheGet, hl, hgt, storeLookup_storeErase_self]

/-- Claim C3 witness: concrete instantiation of `cache_get_set_spec` with
ttl 3 set at time 0, so a read at time 2 hits and a read at time 5 misses
and removes the entry. -/
theorem cache_get_set_spec_witness :
    cacheGet 2 (cacheSet 0 ([] : CacheStore Int) "k" 7 3) "k" =
      (some 7, cacheSet 0 ([] : CacheStore Int) "k" 7 3) ∧
    (cacheGet 5 (cacheSet 0 ([] : CacheStore Int) "k" 7 3) "k").1 = none ∧
    storeLookup (cacheGet 5 (cacheSet 0 ([] : CacheStore Int) "k" 7 3) "k").2 "k" = none :=
  ⟨(cache_get_set_spec ([] : CacheStore Int) "k" 7 3 0 2 (by decide)).1 (by norm_num),
   (cache_get_set_spec ([] : CacheStore Int) "k" 7 3 0 5 (by decide)).2 (by norm_num)⟩

/-- Claim C3 counterexample: a value stored at time 0 with TTL 0 has
`expiresAt = 0`, and a read exactly at `now = expiresAt = 0` returns the
stored value — not the miss the claim requires for reads "at or after"
`expiresAt`. -/
theorem cache_get_at_expiry_counterexample :
    storeLookup (cacheSet (0 : ℚ) ([] : CacheStore Int) "k" 7 0) "k" = some ⟨7, 0⟩ ∧
    (cacheGet (0 : ℚ) (cacheSet (0 : ℚ) ([] : CacheStore Int) "k" 7 0) "k").1 = some 7 := by
  have h0 : (0 : ℚ) + ((0 : Int) : ℚ) = 0 := by norm_num
  constructor
  · simp [cacheSet, storeInsert, storeLookup, List.find?, h0]
  · simp [cacheGet, cacheSet, storeInsert, storeLookup, List.find?, h0]

/-- Claim C4 (amended): `cleanup()` at instant `now` removes exactly the
entries with `expiresAt < now` (the code sweeps keys with
`now > v.expires_at`, so an entry whose `expiresAt` equals `now` is kept,
contrary to the original claim's `expiresAt <= now`), leaves every other
entry untouched in order, and returns the number of entries removed. -/
theorem cache_cleanup_spec {α : Type} (now : ℚ) (store : CacheStore α) :
    (cacheCleanup now store).2 = store.filter (fun kv => decide (now ≤ kv.2.expires_at)) ∧
    (cacheCleanup now store).1 =
      (store.filter (fun kv => decide (kv.2.expires_at < now))).length ∧
    (cacheCleanup now store).1 + (cacheCleanup now store).2.length = store.length ∧
    ∀ kv, kv ∈ (cacheCleanup now store).2 ↔ kv ∈ store ∧ now ≤ kv.2.expires_at := by
  refine ⟨?_, ?_, ?_, ?_⟩
  · simp only [cacheCleanup]
    apply List.filter_congr
    intro kv _
    rw [← decide_not]
    exact decide_eq_decide.mpr not_lt
  · rfl
  · simpa [cacheCleanup] using
      length_filter_add_length_filter_not (fun kv => decide (now > kv.2.expires_at)) store
  · intro kv
    simp [cacheCleanup, List.mem_filter, not_lt]

/-- Claim C4 counterexample: an entry whose `expiresAt` equals `now`
(satisfying the claim's removal condition `expiresAt <= now`) survives
`cleanup()`, and the returned count is 0, not 1. -/
theorem cache_cleanup_at_boundary_counterexample :
    cacheCleanup (0 : ℚ) ([("k", ⟨(7 : Int), 0⟩)] : CacheStore Int) =
      (0, [("k", ⟨7, 0⟩)]) := by
  rfl

/-- Embedding of the lag-calendar anchor computed at the head of
`IsYatirimProvider._get_periods` (isyatirim.py lines 549–585): given the
current year and month, the `(start_year, start_period)` of the latest
available quarter. -/
def quarterAnchor (current_year current_month : Int) : Int × Int :=
  if current_month ≤ 2 then (current_year - 1, 9)
  else if current_month ≤ 5 then (current_year - 1, 12)
  else if current_month ≤ 8 then (current_year, 3)
  else if current_month ≤ 11 then (current_year, 6)
  else (current_year, 9)

/-- Embedding of the backward quarter walk in `_get_periods` (isyatirim.py
lines 587–596): emit `(year, period)`, then `period -= 3`, wrapping to
`(12, year - 1)` whenever `period <= 0`. -/
def genQuarters (year period : Int) : Nat → List (Int × Int)
  | 0 => []
  | n + 1 =>
      (year, period) ::
        (if period - 3 ≤ 0 then genQuarters (year - 1) 12 n
         else genQuarters year (period - 3) n)

/-- Embedding of `IsYatirimProvider._get_periods` (isyatirim.py lines
535–601), with the current month (read from `datetime.now()` in the code)
passed explicitly.  Quarterly mode walks `count * 4` quarters back from
the lag-calendar anchor; annual mode lists the `count` most recent
completed years. -/
def get_periods (current_year current_month : Int) (quarterly : Bool) (count : Nat) :
    List (Int × Int) :=
  if quarterly then
    let a := quarterAnchor current_year current_month
    genQuarters a.1 a.2 (count * 4)
  else (List.range count).map (fun i => (current_year - 1 - (i : Int), 12))

/-- Embedding of the period selection in
`IsYatirimProvider._fetch_financial_table` (isyatirim.py line 620): the
request parameters `year1..year5` / `period1..period5` are built from
`periods[:5]`, so exactly the first five generated periods are queried. -/
def financialTableQueryPeriods (periods : List (Int × Int)) : List (Int × Int) :=
  periods.take 5

lemma genQuarters_head (y p : Int) (n : Nat) (h : 0 < n) :
    (genQuarters y p n).head? = some (y, p) := by
  cases n with
  | zero => omega
  | succ k => simp [genQuarters]

/-- Claim C5: for every current month 1–12, the quarterly anchor has its
period month in {3, 6, 9, 12} and follows the lag table exactly
(months 1–2 give Q3 of the previous year, 3–5 give Q4 of the previous
year, 6–8 give Q1 of the current year, 9–11 give Q2 of the current year,
and month 12 gives Q3 of the current year); the anchor is the first
period the quarterly generator emits. -/
theorem quarter_anchor_lag_table (y m : Int) (h1 : 1 ≤ m) (h2 : m ≤ 12) :
    ((quarterAnchor y m).2 = 3 ∨ (quarterAnchor y m).2 = 6 ∨
      (quarterAnchor y m).2 = 9 ∨ (quarterAnchor y m).2 = 12) ∧
    (m ≤ 2 → quarterAnchor y m = (y - 1, 9)) ∧
    (3 ≤ m → m ≤ 5 → quarterAnchor y m = (y - 1, 12)) ∧
    (6 ≤ m → m ≤ 8 → quarterAnchor y m = (y, 3)) ∧
    (9 ≤ m → m ≤ 11 → quarterAnchor y m = (y, 6)) ∧
    (m = 12 → quarterAnchor y m = (y, 9)) ∧
    (∀ count : Nat, 0 < count →
      (get_periods y m true count).head? = some (quarterAnchor y m)) := by
  refine ⟨?_, ?_, ?_, ?_, ?_, ?_, ?_⟩
  · unfold quarterAnchor
    split_ifs <;> simp
  · intro h
    simp [quarterAnchor, h]
  · intro h3 h5
    unfold quarterAnchor
    split_ifs <;> first | rfl | (exfalso; omega)
  · intro h6 h8
    unfold quarterAnchor
    split_ifs <;> first | rfl | (exfalso; omega)
  · intro h9 h11
    unfold quarterAnchor
    split_ifs <;> first | rfl | (exfalso; omega)
  · intro h12
    unfold quarterAnchor
    split_ifs <;> first | rfl | (exfalso; omega)
  · intro count hc
    simp only [get_periods, if_pos]
    exact genQuarters_head _ _ _ (by omega)

/-- Claim C5 witness: in month 4 the anchor is Q4 of the previous year,
instantiated at year 2025. -/
theorem quarter_anchor_lag_table_witness : quarterAnchor 2025 4 = (2024, 12) :=
  (quarter_anchor_lag_table 2025 4 (by norm_num) (by norm_num)).2.2.1
    (by norm_num) (by norm_num)

/-- Claim C6: with the current month equal to 2 of year Y, quarterly
statements with count = 5 query exactly the periods
(Y-1, 9), (Y-1, 6), (Y-1, 3), (Y-2, 12), (Y-2, 9), in that order. -/
theorem get_periods_month2_count5 (y : Int) :
    financialTableQueryPeriods (get_periods y 2 true 5) =
      [(y - 1, 9), (y - 1, 6), (y - 1, 3), (y - 2, 12), (y - 2, 9)] := by
  norm_num [financialTableQueryPeriods, get_periods, quarterAnchor, genQuarters]
  omega

/-- Embedding of `ParaticProvider.PERIOD_MAP` (paratic.py lines 28–40); the
`"ytd"` entry stores Python `None`, modelled as `none`. -/
def PERIOD_MAP : List (String × Option Nat) :=
  [("1d", some 1), ("5d", some 5), ("1mo", some 30), ("3mo", some 90),
   ("6mo", some 180), ("1y", some 365), ("2y", some 730), ("5y", some 1825),
   ("10y", some 3650), ("ytd", none), ("max", some 3650)]

/-- Embedding of `ParaticProvider._get_period_days` (paratic.py lines
202–213).  The code computes `(datetime.now() - datetime(year, 1, 1)).days`
for `"ytd"`; that day count is the explicit `days_since_year_start`
argument here.  A `PERIOD_MAP` lookup that yields Python `None` — key
absent or stored `None` — falls back to 30. -/
def get_period_days (period : String) (days_since_year_start : Nat) : Nat :=
  if period = "ytd" then days_since_year_start
  else
    match PERIOD_MAP.find? (fun kv => kv.1 == period) with
    | some (_, some d) => d
    | _ => 30

/-- Claim C7: the period→days resolver realises the fixed table
("1d"→1, "5d"→5, "1mo"→30, "3mo"→90, "6mo"→180, "1y"→365, "2y"→730,
"5y"→1825, "10y"→3650, "max"→3650), maps "ytd" to the days elapsed since
January 1 of the current year, and maps every string outside the table to
the 30-day default instead of failing. -/
theorem get_period_days_spec :
    ((∀ n, get_period_days "1d" n = 1) ∧ (∀ n, get_period_days "5d" n = 5) ∧
     (∀ n, get_period_days "1mo" n = 30) ∧ (∀ n, get_period_days "3mo" n = 90) ∧
     (∀ n, get_period_days "6mo" n = 180) ∧ (∀ n, get_period_days "1y" n = 365) ∧
     (∀ n, get_period_days "2y" n = 730) ∧ (∀ n, get_period_days "5y" n = 1825) ∧
     (∀ n, get_period_days "10y" n = 3650) ∧ (∀ n, get_period_days "max" n = 3650)) ∧
    (∀ n, get_period_days "ytd" n = n) ∧
    (∀ p n, p ∉ PERIOD_MAP.map Prod.fst → get_period_days p n = 30) := by
  refine ⟨⟨?_, ?_, ?_, ?_, ?_, ?_, ?_, ?_, ?_, ?_⟩, ?_, ?_⟩
  case _ => intro n; rfl
  case _ => intro n; rfl
  case _ => intro n; rfl
  case _ => intro n; rfl
  case _ => intro n; rfl
  case _ => intro n; rfl
  case _ => intro n; rfl
  case _ => intro n; rfl
  case _ => intro n; rfl
  case _ => intro n; rfl
  case _ => intro n; rfl
  case _ =>
    intro p n hp
    have hy : ¬(p = "ytd") := by
      intro h
      exact hp (by rw [h]; simp [PERIOD_MAP])
    have hfind : PERIOD_MAP.find? (fun kv => kv.1 == p) = none := by
      rw [List.find?_eq_none]
      intro kv hkv
      simp only [beq_iff_eq]
      intro h
      exact hp (h ▸ List.mem_map_of_mem Prod.fst hkv)
    simp [get_period_days, hy, hfind]

/-- Claim C7 witness: the unknown period string "7mo" is outside the table
and resolves to the 30-day default. -/
theorem get_period_days_spec_witness :
    "7mo" ∉ PERIOD_MAP.map Prod.fst ∧ get_period_days "7mo" 99 = 30 :=
  ⟨by decide, get_period_days_spec.2.2 "7mo" 99 (by decide)⟩

/-- Embedding of the Python f-string rendering of a `bool`. -/
def pyBoolStr : Bool → String
  | true => "True"
  | false => "False"

/-- Embedding of the cache key built by
`IsYatirimProvider.get_financial_statements` (isyatirim.py line 489):
`f"isyatirim:financial:{symbol}:{statement_type}:{quarterly}"`.  The
`financial_group` argument of the call does not occur in the key. -/
def isyatirim_financial_cache_key (symbol statement_type : String) (quarterly : Bool)
    (_financial_group : Option String) : String :=
  "isyatirim:financial:" ++ symbol ++ ":" ++ statement_type ++ ":" ++ pyBoolStr quarterly

/-- Embedding of the cache key built by `ParaticProvider.get_history`
(paratic.py lines 154–158):
`f"paratic:history:{symbol}:{period}:{interval}"`, with `":" +
start.isoformat()` appended when `start` is given and `":" +
end.isoformat()` appended when `end` is given. -/
def paratic_history_cache_key (symbol period interval : String)
    (start stop : Option String) : String :=
  "paratic:history:" ++ symbol ++ ":" ++ period ++ ":" ++ interval ++
    (match start with | some s => ":" ++ s | none => "") ++
    (match stop with | some e => ":" ++ e | none => "")

/-- Claim C1: two logically different queries can collide on one cache
key.  First, `get_financial_statements` omits `financial_group` from its
key, so the industrial (XI_29) and bank (UFRS) variants of the same
request share a key.  Second, `get_history` appends the optional `start`
and `end` timestamps without tagging which is which, so a start-only call
and an end-only call with the same timestamp share a key. -/
theorem cache_key_collision :
    isyatirim_financial_cache_key "GARAN" "balance_sheet" false (some "XI_29") =
      isyatirim_financial_cache_key "GARAN" "balance_sheet" false (some "UFRS") ∧
    paratic_history_cache_key "THYAO" "1mo" "1d" (some "2024-01-01T00:00:00") none =
      paratic_history_cache_key "THYAO" "1mo" "1d" none (some "2024-01-01T00:00:00") :=
  ⟨rfl, rfl⟩

/-- Stable insertion step: the new element `x` goes after every
already-placed element `y` with `keep y x = true`. -/
def insertStable {α : Type} (keep : α → α → Bool) (x : α) : List α → List α
  | [] => [x]
  | y :: ys => if keep y x then y :: insertStable keep x ys else x :: y :: ys

/-- Embedding of Python's stable sorts (`list.sort(...)`, Timsort, and
pandas `sort_index`, which the code calls on distinct keys): a fold-left
insertion sort.  `keep y x = true` keeps the earlier element `y` in front
of the newly inserted `x`, so elements comparing equal stay in their
original order. -/
def stableSort {α : Type} (keep : α → α → Bool) (l : List α) : List α :=
  l.foldl (fun acc x => insertStable keep x acc) []

/-- Embedding of a JSON field of one raw Paratic history record:
`absent` is a missing key (`item.get` returns the default), `num` a JSON
number, `bad` a value on which `float()` / `int()` /
`datetime.fromtimestamp` raises `TypeError` or `ValueError`. -/
inductive JField where
  | absent
  | num (q : ℚ)
  | bad
  deriving DecidableEq

/-- Embedding of one raw record of the Paratic historical API response
(paratic.py lines 224–228): keys `d`, `o`, `h`, `l`, `c`, `v`. -/
structure RawItem where
  d : JField
  o : JField
  h : JField
  l : JField
  c : JField
  v : JField
  deriving DecidableEq

/-- Embedding of one parsed OHLCV row (paratic.py lines 246–255), with the
date as the timestamp in seconds. -/
structure OHLCVRow where
  Date : ℚ
  Open : ℚ
  High : ℚ
  Low : ℚ
  Close : ℚ
  Volume : Int
  deriving DecidableEq

/-- Embedding of `float(item.get(key, 0))`: a missing key defaults to 0,
a number converts, and a non-numeric value raises (modelled as `none`). -/
def jGetFloat : JField → Option ℚ
  | .absent => some 0
  | .num q => some q
  | .bad => none

/-- Embedding of Python `int()` applied to a rational value: truncation
toward zero. -/
def pyIntOfRat (q : ℚ) : Int := q.num / (q.den : Int)

/-- Embedding of `int(item.get("v", 0))`. -/
def jGetInt : JField → Option Int
  | .absent => some 0
  | .num q => some (pyIntOfRat q)
  | .bad => none

/-- Embedding of one iteration of the record loop in
`ParaticProvider._parse_response` (paratic.py lines 234–257): skip when
the timestamp is missing (`continue`), when any conversion raises
(`except (TypeError, ValueError): continue`), or when the date falls
outside `[start_dt, end_dt]`; otherwise build the row.  Instants are in
seconds, so the millisecond timestamp is divided by 1000. -/
def parseItem (start_dt end_dt : ℚ) (item : RawItem) : Option OHLCVRow :=
  match item.d with
  | .absent => none
  | .bad => none
  | .num t =>
      let dt := t / 1000
      if dt < start_dt ∨ dt > end_dt then none
      else
        match jGetFloat item.o, jGetFloat item.h, jGetFloat item.l,
            jGetFloat item.c, jGetInt item.v with
        | some o, some hi, some lo, some c, some v => some ⟨dt, o, hi, lo, c, v⟩
        | _, _, _, _, _ => none

/-- Embedding of `ParaticProvider._parse_response` (paratic.py lines
215–266): keep the individually parseable records and sort them by date
(`df.sort_index()`), stably. -/
def parse_response (data : List RawItem) (start_dt end_dt : ℚ) : List OHLCVRow :=
  stableSort (fun y x => decide (y.Date ≤ x.Date))
    (data.filterMap (parseItem start_dt end_dt))

/-- Embedding of the error taxonomy of `borsapy/exceptions.py` used by the
history pipeline. -/
inductive ProviderError where
  | apiError
  | tickerNotFound
  | dataNotAvailable
  deriving DecidableEq

/-- Embedding of the tail of `ParaticProvider.get_history` (paratic.py
lines 185–200) on the cache-miss path, after the HTTP response has been
received and decoded into `data`: an empty body raises
`DataNotAvailableError` (line 191–192), and otherwise the parsed rows are
returned, however few survive parsing. -/
def get_history (data : List RawItem) (start_dt end_dt : ℚ) :
    Except ProviderError (List OHLCVRow) :=
  if data.isEmpty then .error .dataNotAvailable
  else .ok (parse_response data start_dt end_dt)

/-- Claim C8 (amended): each unparseable record is skipped individually
and a partially malformed response returns the successfully parsed rows;
but `DataNotAvailableError` is raised exactly when the decoded upstream
response is the empty list — a non-empty response whose rows all fail to
parse returns an empty row set without raising. -/
theorem get_history_spec (data : List RawItem) (start_dt end_dt : ℚ) :
    (get_history data start_dt end_dt = .error .dataNotAvailable ↔ data = []) ∧
    (data ≠ [] → get_history data start_dt end_dt =
      .ok (stableSort (fun y x => decide (y.Date ≤ x.Date))
        (data.filterMap (parseItem start_dt end_dt)))) := by
  by_cases hd : data = []
  · subst hd
    simp [get_history]
  · simp [get_history, List.isEmpty_iff, hd, parse_response]

/-- Concrete upstream response for the C8 scenario: 10 raw rows of which
8 parse and 2 are malformed (row 9 lacks the `d` timestamp, row 10 has a
non-numeric open price). -/
def sampleHistoryData : List RawItem :=
  [⟨.num 1000, .num 1, .num 2, .num 1, .num 2, .num 10⟩,
   ⟨.num 2000, .num 2, .num 3, .num 2, .num 3, .num 20⟩,
   ⟨.num 3000, .num 3, .num 4, .num 3, .num 4, .num 30⟩,
   ⟨.num 4000, .num 4, .num 5, .num 4, .num 5, .num 40⟩,
   ⟨.num 5000, .num 5, .num 6, .num 5, .num 6, .num 50⟩,
   ⟨.num 6000, .num 6, .num 7, .num 6, .num 7, .num 60⟩,
   ⟨.num 7000, .num 7, .num 8, .num 7, .num 8, .num 70⟩,
   ⟨.num 8000, .num 8, .num 9, .num 8, .num 9, .num 80⟩,
   ⟨.absent, .num 9, .num 10, .num 9, .num 10, .num 90⟩,
   ⟨.num 9000, .bad, .num 11, .num 10, .num 11, .num 100⟩]

/-- Claim C8 witness: a concrete response of 10 raw rows, two of which are
malformed (one with a missing timestamp, one whose open price is not
convertible), yields exactly the 8 parseable rows rather than failing. -/
theorem get_history_spec_witness :
    get_history sampleHistoryData 0 100 =
      .ok (stableSort (fun y x => decide (y.Date ≤ x.Date))
        (sampleHistoryData.filterMap (parseItem 0 100))) ∧
    (sampleHistoryData.filterMap (parseItem 0 100)).length = 8 :=
  ⟨(get_history_spec sampleHistoryData 0 100).2 (by decide),
   by norm_num [sampleHistoryData, parseItem, jGetFloat, jGetInt, List.filterMap]⟩

/-- Claim C8 counterexample: a non-empty upstream response whose sole
record is malformed parses to zero usable records, yet `get_history`
returns an empty result instead of raising `DataNotAvailableError`, so
the raise does not happen "exactly when zero usable records result after
parsing". -/
theorem get_history_zero_parsed_counterexample :
    get_history [⟨.bad, .absent, .absent, .absent, .absent, .absent⟩] 0 100 = .ok [] ∧
    ([(⟨.bad, .absent, .absent, .absent, .absent, .absent⟩ : RawItem)].filterMap
      (parseItem 0 100)).length = 0 :=
  ⟨rfl, rfl⟩

/-- Embedding of the ASCII whitespace class recognised by Python
`str.strip()` and `float()`. -/
def pySpace (c : Char) : Bool :=
  c == ' ' || c == '\t' || c == '\n' || c == '\r' || c == '\x0b' || c == '\x0c'

/-- Embedding of Python `str.strip()`: drop whitespace from both ends. -/
def pyStrip (l : List Char) : List Char :=
  ((l.dropWhile pySpace).reverse.dropWhile pySpace).reverse

/-- Decimal digit string to natural number. -/
def digitsToNat (l : List Char) : Nat :=
  l.foldl (fun n c => 10 * n + (c.toNat - 48)) 0

/-- Embedding of the Python builtin `float(text)` on the fixed-point
fragment the parsers feed it: optional surrounding whitespace, an
optional sign, an integer part, an optional point and fractional part,
with at least one digit overall; anything else raises `ValueError`
(modelled as `none`).  The numeric value is idealised as the exact
decimal rational, built with `mkRat`.  The exponent / infinity / nan /
underscore forms of `float` never arise from the upstream number strings
and are outside this embedding. -/
def pyFloat (s : List Char) : Option ℚ :=
  let t := pyStrip s
  let sgn : Int := match t with | '-' :: _ => -1 | _ => 1
  let u := match t with | '+' :: r => r | '-' :: r => r | r => r
  let ip := u.takeWhile Char.isDigit
  let rest := u.dropWhile Char.isDigit
  match rest with
  | [] => if ip.isEmpty then none else some (mkRat (sgn * digitsToNat ip) 1)
  | '.' :: frac =>
      let fp := frac.takeWhile Char.isDigit
      let rest2 := frac.dropWhile Char.isDigit
      if rest2.isEmpty && !(ip.isEmpty && fp.isEmpty) then
        some (mkRat (sgn * digitsToNat (ip ++ fp)) (10 ^ fp.length))
      else none
  | _ => none

/-- Embedding of `HedeFiyatProvider._parse_number` (hedeffiyat.py lines
337–364): empty input is no value; after stripping, when both a comma and
a dot occur the dots (thousands separators) are removed and the comma
becomes the decimal point; when only a comma occurs it becomes the
decimal point; otherwise the text is parsed unchanged; a `ValueError`
from `float` yields no value.  Python `str.replace` with single-character
arguments is the corresponding filter/map on characters. -/
def hede_parse_number (text : String) : Option ℚ :=
  if text = "" then none
  else
    let t := pyStrip text.data
    let t2 :=
      if (',' ∈ t) ∧ ('.' ∈ t) then
        (t.filter (fun c => !(c == '.'))).map (fun c => if c == ',' then '.' else c)
      else if ',' ∈ t then t.map (fun c => if c == ',' then '.' else c)
      else t
    pyFloat t2

/-- Embedding of `ViOpProvider._parse_number` (viop.py lines 105–114):
empty input is no value; otherwise every dot is removed and every comma
becomes the decimal point, unconditionally, before `float`. -/
def viop_parse_number (text : String) : Option ℚ :=
  if text = "" then none
  else
    pyFloat ((text.data.filter (fun c => !(c == '.'))).map
      (fun c => if c == ',' then '.' else c))

lemma mem_pyStrip {c : Char} {l : List Char} (h : c ∈ pyStrip l) : c ∈ l := by
  simp only [pyStrip, List.mem_reverse] at h
  exact (List.dropWhile_sublist _).subset
    (List.mem_reverse.mp ((List.dropWhile_sublist _).subset h))

/-- Claim C2 (amended): the HedeFiyat parser behaves exactly as claimed —
"1.234,56" ↦ 1234.56, "12,5" ↦ 12.5, "1234.56" ↦ 1234.56, malformed input
↦ no value, and thousands dots are stripped only when a comma is also
present.  The VİOP parser shares the Turkish-format and malformed-input
behaviour but strips dots unconditionally, so the dot-as-decimal input
"1234.56" maps to 123456, not 1234.56. -/
theorem parse_number_spec :
    hede_parse_number "1.234,56" = some 1234.56 ∧
    hede_parse_number "12,5" = some 12.5 ∧
    hede_parse_number "1234.56" = some 1234.56 ∧
    hede_parse_number "" = none ∧
    hede_parse_number "12a5" = none ∧
    (∀ s : String, ',' ∉ s.data → hede_parse_number s =
      if s = "" then none else pyFloat (pyStrip s.data)) ∧
    viop_parse_number "1.234,56" = some 1234.56 ∧
    viop_parse_number "12,5" = some 12.5 ∧
    viop_parse_number "12a5" = none ∧
    viop_parse_number "1234.56" = some 123456 := by
  refine ⟨?_, ?_, ?_, ?_, ?_, ?_, ?_, ?_, ?_, ?_⟩
  case _ =>
    have h1 : hede_parse_number "1.234,56" = some (mkRat 123456 100) := by decide
    rw [h1, Rat.mkRat_eq_div]
    norm_num
  case _ =>
    have h1 : hede_parse_number "12,5" = some (mkRat 125 10) := by decide
    rw [h1, Rat.mkRat_eq_div]
    norm_num
  case _ =>
    have h1 : hede_parse_number "1234.56" = some (mkRat 123456 100) := by decide
    rw [h1, Rat.mkRat_eq_div]
    norm_num
  case _ => rfl
  case _ => decide
  case _ =>
    intro s hs
    by_cases hempty : s = ""
    · simp [hede_parse_number, hempty]
    · have h1 : ¬((',' ∈ pyStrip s.data) ∧ ('.' ∈ pyStrip s.data)) := by
        intro h
        exact hs (mem_pyStrip h.1)
      have h2 : ¬(',' ∈ pyStrip s.data) := fun h => hs (mem_pyStrip h)
      simp [hede_parse_number, hempty, h1, h2]
  case _ =>
    have h1 : viop_parse_number "1.234,56" = some (mkRat 123456 100) := by decide
    rw [h1, Rat.mkRat_eq_div]
    norm_num
  case _ =>
    have h1 : viop_parse_number "12,5" = some (mkRat 125 10) := by decide
    rw [h1, Rat.mkRat_eq_div]
    norm_num
  case _ => decide
  case _ =>
    have h1 : viop_parse_number "1234.56" = some (mkRat 123456 1) := by decide
    rw [h1, Rat.mkRat_eq_div]
    norm_num

/-- Claim C2 witness: the comma-free input "1234.56" goes to `float`
unchanged by the HedeFiyat parser — no thousands-dot stripping without a
comma. -/
theorem parse_number_spec_witness :
    (',' ∉ "1234.56".data) ∧
    hede_parse_number "1234.56" =
      (if ("1234.56" : String) = "" then none else pyFloat (pyStrip "1234.56".data)) :=
  ⟨by decide, parse_number_spec.2.2.2.2.2.1 "1234.56" (by decide)⟩

/-- Claim C2 counterexample: the VİOP `_parse_number` maps the
dot-as-decimal input "1234.56" to 123456 — a silently wrong number — so
the claim does not hold of that parser. -/
theorem viop_parse_number_counterexample :
    viop_parse_number "1234.56" = some 123456 ∧ (123456 : ℚ) ≠ 1234.56 := by
  constructor
  · have h1 : viop_parse_number "1234.56" = some (mkRat 123456 1) := by decide
    rw [h1, Rat.mkRat_eq_div]
    norm_num
  · norm_num

/-- Embedding of the class attributes defined on `TTL`
(cache.py lines 69–79). -/
def ttlClassFields : List (String × Nat) :=
  [("REALTIME_PRICE", 60), ("OHLCV_HISTORY", 3600), ("COMPANY_INFO", 3600),
   ("FINANCIAL_STATEMENTS", 86400), ("FX_RATES", 300), ("COMPANY_LIST", 86400),
   ("FUND_DATA", 3600), ("INFLATION_DATA", 86400)]

/-- Embedding of Python attribute lookup `getattr(TTL, name)`: `none`
models `AttributeError`. -/
def ttlAttrLookup (name : String) : Option Nat :=
  (ttlClassFields.find? (fun kv => kv.1 == name)).map (fun kv => kv.2)

/-- Embedding of `ViOpProvider._fetch_page` (viop.py lines 42–55) on the
assumption that the HTTP GET and the HTML parse themselves succeed,
delivering `soup`.  On a cache hit the cached page is returned.  On a
miss the code evaluates `TTL.VIOP` to build the `_cache_set` call; when
that attribute lookup fails (`AttributeError`), the surrounding
`except Exception` clause turns it into `APIError`. -/
def viop_fetch_page {α : Type} (now : ℚ) (store : CacheStore α) (soup : α) :
    Except ProviderError (α × CacheStore α) :=
  let r := cacheGet now store "viop:page"
  match r.1 with
  | some cached => .ok (cached, r.2)
  | none =>
      match ttlAttrLookup "VIOP" with
      | none => .error .apiError
      | some ttl => .ok (soup, cacheSet now r.2 "viop:page" soup ttl)

/-- Claim C10: `TTL.VIOP` is not among the attributes of the `TTL` class,
so on every cache miss `_fetch_page` raises `APIError` even though the
request and the parse succeeded; a parsed page is returned only when one
is already present (unexpired) in the cache. -/
theorem viop_fetch_page_spec {α : Type} (now : ℚ) (store : CacheStore α) (soup : α) :
    ttlAttrLookup "VIOP" = none ∧
    ((cacheGet now store "viop:page").1 = none →
      viop_fetch_page now store soup = .error .apiError) ∧
    (∀ page rest, viop_fetch_page now store soup = .ok (page, rest) →
      (cacheGet now store "viop:page").1 = some page) := by
  have hv : ttlAttrLookup "VIOP" = none := by rfl
  refine ⟨hv, ?_, ?_⟩
  · intro hmiss
    simp [viop_fetch_page, hmiss, hv]
  · intro page rest hok
    cases h : (cacheGet now store "viop:page").1 with
    | none => simp [viop_fetch_page, h, hv] at hok
    | some cached =>
        simp only [viop_fetch_page, h] at hok
        simp only [Except.ok.injEq, Prod.mk.injEq] at hok
        rw [hok.1]

/-- Claim C10 witness: with an empty cache (a guaranteed miss) and a
successfully fetched and parsed page, `_fetch_page` still fails with
`APIError`. -/
theorem viop_fetch_page_spec_witness :
    viop_fetch_page (0 : ℚ) ([] : CacheStore Int) 42 = .error .apiError :=
  (viop_fetch_page_spec (0 : ℚ) ([] : CacheStore Int) 42).2.1 rfl

/-- Embedding of the `str.maketrans("İıÖöÜüŞşÇçĞğ", "iioouussccgg")`
table used by `KAPProvider._normalize_text` (kap.py line 162). -/
def trTranslate (c : Char) : Char :=
  if c = 'İ' then 'i' else if c = 'ı' then 'i'
  else if c = 'Ö' then 'o' else if c = 'ö' then 'o'
  else if c = 'Ü' then 'u' else if c = 'ü' then 'u'
  else if c = 'Ş' then 's' else if c = 'ş' then 's'
  else if c = 'Ç' then 'c' else if c = 'ç' then 'c'
  else if c = 'Ğ' then 'g' else if c = 'ğ' then 'g'
  else c

/-- Match of the regex alternative `a\.s\.?` after the whitespace run: the
literal "a.s" with an optional trailing dot, returning the remainder. -/
def matchAS : List Char → Option (List Char)
  | 'a' :: '.' :: 's' :: '.' :: r => some r
  | 'a' :: '.' :: 's' :: r => some r
  | _ => none

/-- Match of the regex alternative `anonim sirketi` after the whitespace
run, returning the remainder. -/
def matchAnonim (l : List Char) : Option (List Char) :=
  if ("anonim sirketi".data).isPrefixOf l then some (l.drop 14) else none

lemma matchAS_length {l r : List Char} (h : matchAS l = some r) :
    r.length + 3 ≤ l.length := by
  unfold matchAS at h
  split at h <;> simp_all

lemma matchAnonim_length {l r : List Char} (h : matchAnonim l = some r) :
    r.length + 14 ≤ l.length := by
  unfold matchAnonim at h
  split at h
  · next hpre =>
      have hlen : ("anonim sirketi".data).length ≤ l.length :=
        (List.isPrefixOf_iff_prefix.mp hpre).length_le
      simp only [Option.some.injEq] at h
      subst h
      simp at hlen ⊢
      omega
  · simp at h

/-- Embedding of `re.sub(r"[\.,']|\s+a\.s\.?|\s+anonim sirketi", "", ...)`
(kap.py line 165): a left-to-right scan that deletes single dots, commas
and apostrophes, and deletes a whitespace run followed by the corporate
suffix "a.s" (with optional final dot) or "anonim sirketi".  The regex
alternatives are tried in order at each position; since the suffix
literals start with non-whitespace, the greedy `\s+` never needs
backtracking and consuming the maximal whitespace run is exact. -/
def subSuffixes : List Char → List Char
  | [] => []
  | c :: cs =>
      if c = '.' ∨ c = ',' ∨ c = Char.ofNat 39 then subSuffixes cs
      else if pySpace c then
        match hAS : matchAS (List.dropWhile pySpace cs) with
        | some r => subSuffixes r
        | none =>
            match hAn : matchAnonim (List.dropWhile pySpace cs) with
            | some r => subSuffixes r
            | none => c :: subSuffixes cs
      else c :: subSuffixes cs
  termination_by l => l.length
  decreasing_by
  · simp
  · have h1 := matchAS_length hAS
    have h2 : (List.dropWhile pySpace cs).length ≤ cs.length :=
      (List.dropWhile_sublist pySpace).length_le
    simp
    omega
  · have h1 := matchAnonim_length hAn
    have h2 : (List.dropWhile pySpace cs).length ≤ cs.length :=
      (List.dropWhile_sublist pySpace).length_le
    simp
    omega
  · simp
  · simp

/-- Embedding of `KAPProvider._normalize_text` (kap.py lines 160–166):
Turkish character folding, lowercasing (ASCII fold; upstream ticker and
name text is ASCII after the Turkish translation), suffix/punctuation
removal, final strip. -/
def normalize_text (text : List Char) : List Char :=
  pyStrip (subSuffixes ((text.map trTranslate).map Char.toLower))

/-- Embedding of the Python substring test `needle in haystack` on
character lists. -/
def isSubstr (needle : List Char) : List Char → Bool
  | [] => needle.isEmpty
  | c :: t => needle.isPrefixOf (c :: t) || isSubstr needle t

/-- Embedding of one KAP company row (kap.py lines 88–102). -/
structure Company where
  ticker : String
  name : String
  city : String
  deriving DecidableEq

/-- Embedding of Python `str.upper()` on the ASCII ticker/query text. -/
def pyUpper (l : List Char) : List Char := l.map Char.toUpper

/-- Embedding of the score assignment in `KAPProvider.search` (kap.py
lines 135–147): 1000 for an exact case-insensitive ticker match, 500 for
a ticker starting with the query, 100 for the normalized query occurring
inside the normalized name, 0 otherwise (the row is dropped). -/
def kapScore (query : String) (c : Company) : Nat :=
  if pyUpper c.ticker.data == pyUpper query.data then 1000
  else if (pyUpper query.data).isPrefixOf (pyUpper c.ticker.data) then 500
  else if isSubstr (normalize_text query.data) (normalize_text c.name.data) then 100
  else 0

/-- Embedding of `KAPProvider.search` (kap.py lines 112–158): empty query
or empty candidate list give an empty result; otherwise the positively
scored `(score, row)` pairs are collected in candidate order, sorted
stably by score descending (`results.sort(key=..., reverse=True)`), and
the rows are returned. -/
def kapSearch (query : String) (companies : List Company) : List Company :=
  if query = "" then []
  else if companies.isEmpty then companies
  else
    let results := companies.filterMap (fun c =>
      let score := kapScore query c
      if score > 0 then some (score, c) else none)
    (stableSort (fun y x => decide (x.1 ≤ y.1)) results).map (fun r => r.2)

/-- Exact case-insensitive ticker-code match (the 1000-point tier). -/
def tickerExact (query : String) (c : Company) : Bool :=
  pyUpper c.ticker.data == pyUpper query.data

/-- Ticker-prefix match that is not an exact match (the 500-point tier). -/
def tickerPrefixOnly (query : String) (c : Company) : Bool :=
  !(tickerExact query c) && (pyUpper query.data).isPrefixOf (pyUpper c.ticker.data)

/-- Normalized substring-of-name match that is in neither ticker tier
(the 100-point tier). -/
def nameSubstringOnly (query : String) (c : Company) : Bool :=
  !(tickerExact query c) &&
    !((pyUpper query.data).isPrefixOf (pyUpper c.ticker.data)) &&
    isSubstr (normalize_text query.data) (normalize_text c.name.data)

lemma kapScore_tiers (q : String) (c : Company) :
    (kapScore q c = 1000 ↔ tickerExact q c = true) ∧
    (kapScore q c = 500 ↔ tickerPrefixOnly q c = true) ∧
    (kapScore q c = 100 ↔ nameSubstringOnly q c = true) ∧
    (kapScore q c = 1000 ∨ kapScore q c = 500 ∨ kapScore q c = 100 ∨ kapScore q c = 0) := by
  unfold kapScore tickerExact tickerPrefixOnly nameSubstringOnly
  cases h1 : (pyUpper c.ticker.data == pyUpper q.data) <;>
    cases h2 : (pyUpper q.data).isPrefixOf (pyUpper c.ticker.data) <;>
      cases h3 : isSubstr (normalize_text q.data) (normalize_text c.name.data) <;>
        simp [tickerExact, h1, h2, h3]

lemma insertStable_partition (x : Nat × Company) (A rest : List (Nat × Company))
    (hA : ∀ a ∈ A, x.1 ≤ a.1) (hrest : ∀ b ∈ rest, b.1 < x.1) :
    insertStable (fun y z => decide (z.1 ≤ y.1)) x (A ++ rest) = A ++ x :: rest := by
  induction A with
  | nil =>
      cases rest with
      | nil => rfl
      | cons b bs =>
          have hb : b.1 < x.1 := hrest b (by simp)
          simp only [List.nil_append, insertStable]
          rw [if_neg (by simp; omega)]
  | cons a A ih =>
      have ha : x.1 ≤ a.1 := hA a (by simp)
      simp only [List.cons_append, insertStable]
      rw [if_pos (by simp [ha])]
      simp only [List.append_eq]
      rw [ih (fun a2 ha2 => hA a2 (by simp [ha2]))]

lemma foldl_insert_tiers (l : List (Nat × Company)) :
    ∀ A B C : List (Nat × Company),
      (∀ a ∈ A, a.1 = 1000) → (∀ b ∈ B, b.1 = 500) → (∀ c ∈ C, c.1 = 100) →
      (∀ p ∈ l, p.1 = 1000 ∨ p.1 = 500 ∨ p.1 = 100) →
      List.foldl (fun acc x => insertStable (fun y z => decide (z.1 ≤ y.1)) x acc)
          (A ++ B ++ C) l =
        (A ++ l.filter (fun p => p.1 == 1000)) ++
          (B ++ l.filter (fun p => p.1 == 500)) ++
          (C ++ l.filter (fun p => p.1 == 100)) := by
  induction l with
  | nil => intro A B C _ _ _ _; simp
  | cons x xs ih =>
      intro A B C hA hB hC hl
      have hx := hl x (by simp)
      have hxs : ∀ p ∈ xs, p.1 = 1000 ∨ p.1 = 500 ∨ p.1 = 100 :=
        fun p hp => hl p (by simp [hp])
      rcases hx with hx | hx | hx
      · have hins : insertStable (fun y z => decide (z.1 ≤ y.1)) x (A ++ B ++ C) =
            (A ++ [x]) ++ B ++ C := by
          rw [List.append_assoc]
          rw [insertStable_partition x A (B ++ C)
            (fun a ha => by rw [hA a ha, hx])
            (fun b hb => by
              rcases List.mem_append.mp hb with h | h
              · rw [hB b h, hx]; omega
              · rw [hC b h, hx]; omega)]
          simp
        rw [List.foldl_cons, hins, ih (A ++ [x]) B C
          (fun a ha => by
            rcases List.mem_append.mp ha with h | h
            · exact hA a h
            · simp at h; rw [h, hx])
          hB hC hxs]
        simp [List.filter_cons, hx, List.append_assoc]
      · have hins : insertStable (fun y z => decide (z.1 ≤ y.1)) x (A ++ B ++ C) =
            A ++ (B ++ [x]) ++ C := by
          rw [insertStable_partition x (A ++ B) C
            (fun a ha => by
              rcases List.mem_append.mp ha with h | h
              · rw [hA a h, hx]; omega
              · rw [hB a h, hx])
            (fun b hb => by rw [hC b hb, hx]; omega)]
          simp
        rw [List.foldl_cons, hins, ih A (B ++ [x]) C hA
          (fun b hb => by
            rcases List.mem_append.mp hb with h | h
            · exact hB b h
            · simp at h; rw [h, hx])
          hC hxs]
        simp [List.filter_cons, hx, List.append_assoc]
      · have hall : ∀ a ∈ A ++ B ++ C, x.1 ≤ a.1 := by
          intro a ha
          rcases List.mem_append.mp ha with h | h
          · rcases List.mem_append.mp h with h2 | h2
            · rw [hA a h2, hx]; omega
            · rw [hB a h2, hx]; omega
          · rw [hC a h, hx]
        have hins : insertStable (fun y z => decide (z.1 ≤ y.1)) x (A ++ B ++ C) =
            A ++ B ++ (C ++ [x]) := by
          have h0 := insertStable_partition x (A ++ B ++ C) [] hall (by simp)
          simpa [List.append_assoc] using h0
        rw [List.foldl_cons, hins, ih A B (C ++ [x]) hA hB
          (fun b hb => by
            rcases List.mem_append.mp hb with h | h
            · exact hC b h
            · simp at h; rw [h, hx])
          hxs]
        simp [List.filter_cons, hx, List.append_assoc]

lemma stableSort_tiers (l : List (Nat × Company))
    (hl : ∀ p ∈ l, p.1 = 1000 ∨ p.1 = 500 ∨ p.1 = 100) :
    stableSort (fun y z => decide (z.1 ≤ y.1)) l =
      l.filter (fun p => p.1 == 1000) ++ l.filter (fun p => p.1 == 500) ++
        l.filter (fun p => p.1 == 100) := by
  have := foldl_insert_tiers l [] [] [] (by simp) (by simp) (by simp) hl
  simpa [stableSort] using this

lemma map_snd_filter_key (cs : List Company) (q : String) (k : Nat) (hk : 0 < k) :
    ((cs.filterMap (fun c =>
        if kapScore q c > 0 then some (kapScore q c, c) else none)).filter
      (fun p => p.1 == k)).map (fun r => r.2) =
    cs.filter (fun c => kapScore q c == k) := by
  induction cs with
  | nil => rfl
  | cons c cs ih =>
      by_cases h : kapScore q c > 0
      · by_cases hk2 : kapScore q c = k
        · simp [List.filterMap_cons, h, List.filter_cons, hk2, hk, ih]
        · simp [List.filterMap_cons, h, List.filter_cons, hk2, hk, ih]
      · have hk2 : kapScore q c ≠ k := by omega
        simp [List.filterMap_cons, h, List.filter_cons, hk2, hk, ih]

lemma score_beq_tier (q : String) (c : Company) :
    ((kapScore q c == 1000) = tickerExact q c) ∧
    ((kapScore q c == 500) = tickerPrefixOnly q c) ∧
    ((kapScore q c == 100) = nameSubstringOnly q c) := by
  obtain ⟨h1, h2, h3, _⟩ := kapScore_tiers q c
  refine ⟨?_, ?_, ?_⟩
  · cases h : tickerExact q c
    · have hne : kapScore q c ≠ 1000 := fun he => by
        have := h1.mp he
        rw [h] at this
        exact Bool.false_ne_true this
      simp [hne]
    · simp [h1.mpr h]
  · cases h : tickerPrefixOnly q c
    · have hne : kapScore q c ≠ 500 := fun he => by
        have := h2.mp he
        rw [h] at this
        exact Bool.false_ne_true this
      simp [hne]
    · simp [h2.mpr h]
  · cases h : nameSubstringOnly q c
    · have hne : kapScore q c ≠ 100 := fun he => by
        have := h3.mp he
        rw [h] at this
        exact Bool.false_ne_true this
      simp [hne]
    · simp [h3.mpr h]

/-- Claim C9: for a non-empty query over a fixed candidate list, the
search result is exactly the exact-ticker tier, then the
ticker-prefix tier, then the normalized substring-of-name tier —
each tier in original upstream order (the sort is stable), and the tiers
in descending score order (1000 > 500 > 100). -/
theorem kap_search_tiered (q : String) (cs : List Company) (hq : q ≠ "") :
    kapSearch q cs =
      cs.filter (tickerExact q) ++ cs.filter (tickerPrefixOnly q) ++
        cs.filter (nameSubstringOnly q) := by
  by_cases hcs : cs.isEmpty
  · rw [List.isEmpty_iff.mp hcs]
    simp [kapSearch, hq]
  · unfold kapSearch
    rw [if_neg hq, if_neg hcs]
    have hmem : ∀ p ∈ cs.filterMap (fun c =>
        if kapScore q c > 0 then some (kapScore q c, c) else none),
        p.1 = 1000 ∨ p.1 = 500 ∨ p.1 = 100 := by
      intro p hp
      rcases List.mem_filterMap.mp hp with ⟨c, _, hpc⟩
      by_cases h : kapScore q c > 0
      · rw [if_pos h] at hpc
        obtain rfl := Option.some.inj hpc
        obtain ⟨_, _, _, h4⟩ := kapScore_tiers q c
        rcases h4 with h4 | h4 | h4 | h4
        · simp [h4]
        · simp [h4]
        · simp [h4]
        · omega
      · rw [if_neg h] at hpc
        exact absurd hpc (by simp)
    simp only []
    rw [stableSort_tiers _ hmem]
    rw [List.map_append, List.map_append]
    rw [map_snd_filter_key cs q 1000 (by norm_num),
        map_snd_filter_key cs q 500 (by norm_num),
        map_snd_filter_key cs q 100 (by norm_num)]
    rw [List.filter_congr (fun c _ => (score_beq_tier q c).1),
        List.filter_congr (fun c _ => (score_beq_tier q c).2.1),
        List.filter_congr (fun c _ => (score_beq_tier q c).2.2)]

/-- Claim C9 witness: the tier decomposition instantiated for the query
"GARAN" over a concrete candidate list. -/
theorem kap_search_tiered_witness :
    kapSearch "GARAN"
        [⟨"GARAN", "GARANTI BANKASI", "ISTANBUL"⟩,
         ⟨"GARFA", "GARANTI FAKTORING", "ISTANBUL"⟩] =
      [⟨"GARAN", "GARANTI BANKASI", "ISTANBUL"⟩,
         ⟨"GARFA", "GARANTI FAKTORING", "ISTANBUL"⟩].filter (tickerExact "GARAN") ++
      [⟨"GARAN", "GARANTI BANKASI", "ISTANBUL"⟩,
         ⟨"GARFA", "GARANTI FAKTORING", "ISTANBUL"⟩].filter (tickerPrefixOnly "GARAN") ++
      [⟨"GARAN", "GARANTI BANKASI", "ISTANBUL"⟩,
         ⟨"GARFA", "GARANTI FAKTORING", "ISTANBUL"⟩].filter (nameSubstringOnly "GARAN") :=
  kap_search_tiered "GARAN" _ (by decide)

end Borsapy
